import Mathlib

/-!
# Verification of the zkMove interpreter core (zkmove-lite)

Shallow embedding of `src/vm/src/interpreter.rs` (the interpreter driver:
argument processing, frame construction, and the call/return loop of
`run_script`) together with the test-directive parser of
`src/vm/tests/testsuite.rs` (`parse_config`).

The crates `error`, `movelang`, and the modules `frame.rs`, `stack.rs`,
`locals.rs`, `value.rs`, `runtime.rs` of this repository are not available
under `src/`; the definitions taken from them are modelled from the spec and
carry a doc comment starting with `Modelled from the spec:`.  Everything else
is translated directly from `interpreter.rs` / `testsuite.rs`.

Values flowing through the interpreter are opaque to the driver, so the
interpreter model is parametric in the value type `V`.
-/

/-- Modelled from the spec: the error kinds of the `error` crate (not under
`src/`), listed in spec §7, plus `SynthesisError` which `interpreter.rs`
uses explicitly (`StatusCode::SynthesisError`, line 79). -/
inductive StatusCode where
  | StackUnderflow
  | LocalsIndexOutOfBounds
  | ArgumentArityMismatch
  | ArgumentTypeConversionFailure
  | UnresolvedFunctionHandle
  | SynthesisError
deriving DecidableEq, Repr

/-- Modelled from the spec: `RuntimeError` of the `error` crate (not under
`src/`); a typed error wrapping a status code, constructed with
`RuntimeError::new(status_code)` as at `interpreter.rs:79`. -/
structure RuntimeError where
  status : StatusCode
deriving DecidableEq, Repr

def RuntimeError.new (status : StatusCode) : RuntimeError := ⟨status⟩

/-- Modelled from the spec: the fragment of `move_vm_runtime::loader::Function`
the interpreter reads — `arg_count()` and `local_count()`
(`interpreter.rs:89-90`).  The crate is external to this repository. -/
structure FunctionData where
  arg_count : Nat
  local_count : Nat
deriving DecidableEq, Repr

/-- Modelled from the spec: the value kinds of `movelang::value::MoveValueType`
(not under `src/`); only their identity matters to the interpreter driver. -/
inductive MoveValueType where
  | U8
  | U64
  | U128
  | Bool
  | Address
deriving DecidableEq, Repr

/-- Modelled from the spec: the cell returned by the instruction chip's
`load_private` — a witness value paired with a reference to the allocated
circuit cell (`cell.value` and `cell.cell` at `interpreter.rs:82`).
Cell references are modelled as natural numbers. -/
structure Cell (F : Type) where
  value : Option F
  cell : Nat
deriving DecidableEq, Repr

/-- Modelled from the spec: `Value` (value.rs, not under `src/`), spec §3 —
a typed pairing of a possibly-unknown scalar witness and a reference to its
allocated circuit cell. -/
structure Value (F : Type) where
  value : Option F
  cell : Nat
  ty : MoveValueType
deriving DecidableEq, Repr

/-- Modelled from the spec: `Value::new_variable` (value.rs, not under
`src/`), used at `interpreter.rs:82` to build a `Value` from an allocated
cell's witness, the cell reference and the declared type. -/
def Value.new_variable (value : Option F) (cell : Nat) (ty : MoveValueType) :
    Except RuntimeError (Value F) :=
  .ok ⟨value, cell, ty⟩

/-- Modelled from the spec: `Locals` (locals.rs, not under `src/`), spec §3 —
a fixed-capacity, index-addressed bank of values, zero(`none`)-initialized,
capacity fixed at construction. -/
abbrev Locals (V : Type) : Type := List (Option V)

/-- Modelled from the spec: `Locals::new(count)` — a bank of `count` empty
slots (`interpreter.rs:89`). -/
def Locals.new (V : Type) (count : Nat) : Locals V := List.replicate count none

/-- Modelled from the spec: `Locals::store(index, value)` (spec §4.4) —
stores at `index`, failing with `LocalsIndexOutOfBounds` when
`index >= capacity`; the capacity is never resized. -/
def Locals.store (locals : Locals V) (index : Nat) (value : V) :
    Except RuntimeError (Locals V) :=
  if index < locals.length then .ok (locals.set index (some value))
  else .error (RuntimeError.new StatusCode.LocalsIndexOutOfBounds)

/-- Modelled from the spec: `Locals::load(index)` (spec §4.4). -/
def Locals.load (locals : Locals V) (index : Nat) :
    Except RuntimeError (Option V) :=
  match locals[index]? with
  | some slot => .ok slot
  | none => .error (RuntimeError.new StatusCode.LocalsIndexOutOfBounds)

/-- Modelled from the spec: `EvalStack` (stack.rs, not under `src/`), spec §3
and §4.3 — a LIFO sequence of values; the head of the list is the top. -/
abbrev EvalStack (V : Type) : Type := List V

/-- Modelled from the spec: `EvalStack::pop` (spec §4.3) — removes and
returns the most recently pushed value; on an empty stack it fails with
`StackUnderflow` (and leaves the stack empty), it never panics. -/
def EvalStack.pop (stack : EvalStack V) :
    Except RuntimeError V × EvalStack V :=
  match stack with
  | [] => (.error (RuntimeError.new StatusCode.StackUnderflow), [])
  | v :: rest => (.ok v, rest)

/-- Modelled from the spec: `Frame` (frame.rs, not under `src/`), spec §3 —
one activation record: function reference, its locals, program counter. -/
structure Frame (V : Type) where
  func : FunctionData
  locals : Locals V
  pc : Nat
deriving DecidableEq, Repr

/-- Modelled from the spec: `Frame::new(func, locals)` (`interpreter.rs:94`,
`interpreter.rs:117`); a fresh frame starts at the beginning of its code. -/
def Frame.new (func : FunctionData) (locals : Locals V) : Frame V :=
  ⟨func, locals, 0⟩

/-- Modelled from the spec: `Frame::add_pc` (frame.rs, not under `src/`) —
"advance its pc past the instruction that issued the call" (spec §4.1),
used at `interpreter.rs:125` when a suspended caller is resumed. -/
def Frame.add_pc (frame : Frame V) : Frame V :=
  { frame with pc := frame.pc + 1 }

/-- Embeds `ExitStatus` (frame.rs, not under `src/`): the two control transfers a
frame's execution can report to the interpreter, exactly as matched at
`interpreter.rs:121-138`.  Spec §4.1: "No other exit statuses exist." -/
inductive ExitStatus where
  | Return
  | Call (index : Nat)
deriving DecidableEq, Repr

/-- The interpreter state: the shared operand stack, the call stack of
suspended frames (head = most recently suspended), and the step counter
(`interpreter.rs:21-25`). -/
structure Interpreter (V : Type) where
  stack : EvalStack V
  frames : List (Frame V)
  step : Nat
deriving DecidableEq, Repr

/-- Embeds `Interpreter::new` (`interpreter.rs:29-35`). -/
def Interpreter.new (V : Type) : Interpreter V := ⟨[], [], 0⟩

/-- Models `MoveLoader` (movelang crate, not under `src/`) with the type its
only visible use pins down: `interpreter.rs:131-133` binds
`loader.function_from_handle(frame.func(), index)` directly as a bare
`Arc<Function>` — no `Result`, no `?` — and immediately calls `.name()` on
it and passes it to `make_frame`.  Resolution is therefore a total
function in the interpreter's model; it is kept opaque, since what the
absent implementation does on an unresolvable handle (spec §6 demands a
deterministic typed failure) has no carrier in the visible code. -/
structure MoveLoader where
  function_from_handle : FunctionData → Nat → FunctionData

/-- The argument-popping loop of `make_frame` (`interpreter.rs:91-93`):
`for i in 0..arg_count { locals.store(arg_count - i - 1, self.stack.pop()?)? }`.
Here the recursion counts the remaining iterations `n = arg_count - i`
downwards, so the store index `arg_count - i - 1` is the `n` of the `n+1`
pattern.  The stack is threaded explicitly because `self.stack.pop()`
mutates it even when a later step fails. -/
def makeFrameLoop :
    Nat → Locals V → EvalStack V → Except RuntimeError (Locals V) × EvalStack V
  | 0, locals, stack => (.ok locals, stack)
  | n + 1, locals, stack =>
    match EvalStack.pop stack with
    | (.error e, stack') => (.error e, stack')
    | (.ok value, stack') =>
      match Locals.store locals n value with
      | .error e => (.error e, stack')
      | .ok locals' => makeFrameLoop n locals' stack'

/-- Embeds `Interpreter::make_frame` (`interpreter.rs:88-95`): allocate locals of the
callee's local count, pop `arg_count` values off the evaluation stack storing
them at indices `arg_count-1 .. 0`, and build the frame.  The second
component is the interpreter after the (possibly partial) pops. -/
def make_frame (interp : Interpreter V) (func : FunctionData) :
    Except RuntimeError (Frame V) × Interpreter V :=
  let locals := Locals.new V func.local_count
  let arg_count := func.arg_count
  match makeFrameLoop arg_count locals interp.stack with
  | (.error e, stack') => (.error e, { interp with stack := stack' })
  | (.ok locals', stack') =>
    (.ok (Frame.new func locals'), { interp with stack := stack' })

/-- The per-argument body of `Interpreter::process_arguments`
(`interpreter.rs:68-83`), iterating over the zipped `(argument, type)` pairs
with the running index `i`.  `convert_from` (movelang) and `load_private`
(the instructions chip) are external and passed as parameters; a
`load_private` failure is wrapped into `SynthesisError` exactly as the
`map_err` at `interpreter.rs:77-80` does. -/
def processArgsLoop (convert_from : A → Except RuntimeError F)
    (load_private : Nat → Option F → Except Unit (Cell F)) :
    Nat → Locals (Value F) → List (Option A × MoveValueType) →
      Except RuntimeError (Locals (Value F))
  | _, locals, [] => .ok locals
  | i, locals, (arg, ty) :: rest =>
    match (match arg with
           | some a =>
             match convert_from a with
             | .ok value => .ok (some value)
             | .error e => .error e
           | none => .ok (none : Option F) :
           Except RuntimeError (Option F)) with
    | .error e => .error e
    | .ok val =>
      match load_private i val with
      | .error _ => .error (RuntimeError.new StatusCode.SynthesisError)
      | .ok cell =>
        match Value.new_variable cell.value cell.cell ty with
        | .error e => .error e
        | .ok value =>
          match Locals.store locals i value with
          | .error e => .error e
          | .ok locals' => processArgsLoop convert_from load_private (i + 1) locals' rest

/-- Embeds `Interpreter::process_arguments` (`interpreter.rs:49-86`): pair the
optional literal arguments with the declared types — `values.map(Some)`
zipped with `arg_types` when arguments are present (truncating to the
shorter list, as Rust's `zip` does), or `repeat(None)` zipped with
`arg_types` otherwise — then convert, allocate a private witness cell and
store each resulting value at its parameter index. -/
def process_arguments (convert_from : A → Except RuntimeError F)
    (load_private : Nat → Option F → Except Unit (Cell F))
    (locals : Locals (Value F)) (args : Option (List A))
    (arg_types : List MoveValueType) :
    Except RuntimeError (Locals (Value F)) :=
  let arg_type_pairs : List (Option A × MoveValueType) :=
    match args with
    | some values => (values.map some).zip arg_types
    | none => arg_types.map (fun ty => ((none : Option A), ty))
  processArgsLoop convert_from load_private 0 locals arg_type_pairs

/-- Modelled from the spec: the type of `Frame::execute` (frame.rs, not under
`src/`), spec §4.2 — executing the current frame against the instruction
capability produces exactly one `ExitStatus`, may mutate the frame (pc,
locals) and the evaluation stack, and "must not allow the Frame to directly
mutate CallStack — that remains the Interpreter's exclusive responsibility".
It is kept abstract as a parameter of the driver loop. -/
def FrameExec (V : Type) : Type :=
  Frame V → EvalStack V → Except RuntimeError (ExitStatus × Frame V × EvalStack V)

/-- One call of `frame.execute(...)` from the driver loop
(`interpreter.rs:120`), lifted to the interpreter state.  Modelled from the
spec: the step counter is "incremented per script-level operation" /
"advanced once per top-level call into a region" (spec §3, §4.1); the
increment site is inside frame execution (frame.rs, not under `src/`), so
the wrapper advances it once per call. -/
def execFrame (exec : FrameExec V) (frame : Frame V) (interp : Interpreter V) :
    Except RuntimeError (ExitStatus × Frame V × Interpreter V) :=
  match exec frame interp.stack with
  | .error e => .error e
  | .ok (status, frame', stack') =>
    .ok (status, frame', { interp with stack := stack', step := interp.step + 1 })

/-- Outcome of the driver loop: normal termination (`return Ok(())` at
`interpreter.rs:127`, with the final interpreter state), a propagated
runtime error, or exhaustion of the step budget (the Rust loop is
unbounded; the fuel only models its partiality). -/
inductive RunOutcome (V : Type) where
  | ok (interp : Interpreter V)
  | err (e : RuntimeError)
  | out_of_fuel (frame : Frame V) (interp : Interpreter V)
deriving DecidableEq, Repr

/-- The call/return loop of `Interpreter::run_script`
(`interpreter.rs:119-139`): execute the current frame; on
`ExitStatus::Return` pop the call stack and resume the caller past its call
instruction, or terminate successfully when no caller is suspended; on
`ExitStatus::Call(index)` resolve the callee through the loader, build its
frame with `make_frame` (popping its arguments), suspend the current frame
onto the call stack and continue in the callee. -/
def runLoop (exec : FrameExec V) (loader : MoveLoader) :
    Nat → Frame V → Interpreter V → RunOutcome V
  | 0, frame, interp => .out_of_fuel frame interp
  | fuel + 1, frame, interp =>
    match execFrame exec frame interp with
    | .error e => .err e
    | .ok (status, frame', interp') =>
      match status with
      | .Return =>
        match interp'.frames with
        | caller :: rest =>
          runLoop exec loader fuel caller.add_pc { interp' with frames := rest }
        | [] => .ok interp'
      | .Call index =>
        let func := loader.function_from_handle frame'.func index
        match make_frame interp' func with
        | (.error e, _) => .err e
        | (.ok callee_frame, interp'') =>
          runLoop exec loader fuel callee_frame
            { interp'' with frames := frame' :: interp''.frames }

/-- Ghost trace of the circuit-region labels the driver loop hands to the
layouter: each iteration opens the region
`format!("into frame in step#{}", self.step)` (`interpreter.rs:120`); the
trace records the embedded step number at each iteration.  The recursion
mirrors `runLoop` exactly. -/
def runLabels (exec : FrameExec V) (loader : MoveLoader) :
    Nat → Frame V → Interpreter V → List Nat
  | 0, _, _ => []
  | fuel + 1, frame, interp =>
    interp.step ::
      (match execFrame exec frame interp with
       | .error _ => []
       | .ok (status, frame', interp') =>
         match status with
         | .Return =>
           match interp'.frames with
           | caller :: rest =>
             runLabels exec loader fuel caller.add_pc { interp' with frames := rest }
           | [] => []
         | .Call index =>
           match make_frame interp'
               (loader.function_from_handle frame'.func index) with
           | (.error _, _) => []
           | (.ok callee_frame, interp'') =>
             runLabels exec loader fuel callee_frame
               { interp'' with frames := frame' :: interp''.frames })

/-- Embeds `Interpreter::run_script` (`interpreter.rs:97-140`): allocate the entry
function's locals, process the script arguments into them, build the root
frame and enter the call/return loop.  The root frame is a local of
`run_script`; it is *not* pushed onto the call stack
(`interpreter.rs:117-119`). -/
def run_script (exec : FrameExec (Value F))
    (convert_from : A → Except RuntimeError F)
    (load_private : Nat → Option F → Except Unit (Cell F))
    (loader : MoveLoader) (fuel : Nat) (entry : FunctionData)
    (args : Option (List A)) (arg_types : List MoveValueType)
    (interp : Interpreter (Value F)) : RunOutcome (Value F) :=
  let locals := Locals.new (Value F) entry.local_count
  match process_arguments convert_from load_private locals args arg_types with
  | .error e => .err e
  | .ok locals' => runLoop exec loader fuel (Frame.new entry locals') interp

/-! ## The test-script directive parser (`testsuite.rs`) -/

/-- Embeds `RunConfig` (`testsuite.rs:11-15`).  `ScriptArguments` parsing lives in
the movelang crate (not under `src/`), so `args` records the exact
character sequence handed to `s.parse::<ScriptArguments>()`
(`testsuite.rs:32`) and `modules` the module-name strings. -/
structure RunConfig where
  args : Option (List Char)
  modules : List (List Char)
deriving DecidableEq, Repr

/-- Embeds `line.split_whitespace().collect::<String>()` (`testsuite.rs:30`):
splitting at whitespace and concatenating the pieces removes every
whitespace character from the line. -/
def stripWhitespace (line : List Char) : List Char :=
  line.filter (fun c => !c.isWhitespace)

/-- Rust's `str::strip_prefix`: `some` of the remainder when the second
list starts with the first, `none` otherwise. -/
def stripPfx : List Char → List Char → Option (List Char)
  | [], s => some s
  | _ :: _, [] => none
  | p :: ps, c :: cs => if c = p then stripPfx ps cs else none

/-- The `//!args:` directive marker (`testsuite.rs:31`). -/
def argsMarker : List Char := "//!args:".toList

/-- The `//!mods:` directive marker (`testsuite.rs:34`). -/
def modsMarker : List Char := "//!mods:".toList

/-- The per-line body of `parse_config`'s loop (`testsuite.rs:29-37`):
strip all whitespace from the line, then try both directive markers —
an `//!args:` match replaces `config.args`, an `//!mods:` match appends
one module name. -/
def parseConfigLine (config : RunConfig) (line : List Char) : RunConfig :=
  let s := stripWhitespace line
  let config' :=
    match stripPfx argsMarker s with
    | some v => { config with args := some v }
    | none => config
  match stripPfx modsMarker s with
  | some v => { config' with modules := config'.modules ++ [v] }
  | none => config'

/-- Embeds `parse_config` (`testsuite.rs:17-39`), over the file's lines. -/
def parse_config (lines : List (List Char)) : RunConfig :=
  lines.foldl parseConfigLine ⟨none, []⟩

/-- The characters of the line `//! args: 3,5` — whitespace interleaved with
the `//!args:` marker — used by the C8 theorems. -/
def cexArgsLine : List Char := "//! args: 3,5".toList

/-- The characters of the stripped directive value `3,5`. -/
def cexArgsValue : List Char := "3,5".toList

/-- The characters of the line `//!mods: M`. -/
def cexModsLine : List Char := "//!mods: M".toList

/-- The characters of the module name `M`. -/
def cexModName : List Char := "M".toList

/-! ## The script-level proving pipeline (C9) -/

/-- Modelled from the spec: a compiled script together with its auxiliary
modules — the circuit-determining input shared by `execute_script`,
`setup_script` and `prove_script` (spec §6; `runtime.rs` is declared in
`lib.rs` but absent from `src/`, and the cryptographic backend is
external). -/
structure Script where
  script_bytes : List Nat
  modules : List (List Nat)
deriving DecidableEq, Repr

/-- Modelled from the spec: the proving parameters produced by
`vm::setup_script` — a proving key and a verification key, both derived
deterministically from the circuit, i.e. from the script and modules
(spec §6: "derive proving/verification keys by running the core once in
circuit-construction mode with unknown witnesses"). -/
structure ProvingParameters where
  pk : Script
  vk : Script
deriving DecidableEq, Repr

/-- Modelled from the spec: a zero-knowledge proof, which attests an
execution of the circuit identified by the parameters it was produced
with (spec §6, §8 Scenario B: verification is key-specific). -/
structure ZkProof where
  circuit : Script
deriving DecidableEq, Repr

/-- Modelled from the spec: `vm::setup_script` (spec §6) — derives the
proving parameters of the script's circuit. -/
def setup_script (s : Script) : ProvingParameters := ⟨s, s⟩

/-- Modelled from the spec: `vm::prove_script` (spec §6) — runs the core
with known witnesses (abstracted as the `execute` oracle, the plain
interpretation of spec §6's `execute_script`); any execution or synthesis
failure propagates as a typed error (spec §7), a successful run yields a
proof for the circuit of the supplied parameters. -/
def prove_script (execute : Script → Option (List Nat) → Except RuntimeError Unit)
    (s : Script) (args : Option (List Nat)) (params : ProvingParameters) :
    Except RuntimeError ZkProof :=
  match execute s args with
  | .ok _ => .ok ⟨params.pk⟩
  | .error e => .error e

/-- Modelled from the spec: `vm::verify_script` (spec §6) — checks a proof
against a verification key and returns a boolean (never an execution-style
error, spec §7): the proof must have been produced for the circuit this
key was derived from. -/
def verify_script (vk : Script) (zkproof : ZkProof) : Bool :=
  zkproof.circuit == vk

/-! ## Concrete oracles and fixtures used by the witness theorems -/

/-- A frame-execution oracle that always reports `Return` without touching
the frame or the stack (used to instantiate witnesses). -/
def retExec : FrameExec Nat :=
  fun frame stack => .ok (ExitStatus.Return, frame, stack)

/-- A loader fixture resolving every handle to the caller itself (as the
loader is total, some function is always produced). -/
def constLoader : MoveLoader := ⟨fun caller _ => caller⟩

/-- A concrete frame used by the witnesses. -/
def witFrame : Frame Nat := ⟨⟨0, 0⟩, [], 0⟩

/-- A concrete suspended caller frame used by the witnesses. -/
def witCaller : Frame Nat := ⟨⟨0, 1⟩, [none], 4⟩

/-- A frame-execution oracle that always issues `Call 0`. -/
def callExec : FrameExec Nat :=
  fun frame stack => .ok (ExitStatus.Call 0, frame, stack)

/-- A loader resolving every handle to the single function `⟨1, 1⟩`
(one argument, one local). -/
def oneLoader : MoveLoader := ⟨fun _ _ => ⟨1, 1⟩⟩

/-- A frame-execution oracle that always issues `Call 7`. -/
def callSevenExec : FrameExec Nat :=
  fun frame stack => .ok (ExitStatus.Call 7, frame, stack)

/-- A conversion oracle on literal naturals that always succeeds. -/
def witConvert : Nat → Except RuntimeError Nat := fun a => .ok a

/-- A private-witness allocator that always succeeds, labelling the cell
with the argument index. -/
def witLoadPrivate : Nat → Option Nat → Except Unit (Cell Nat) :=
  fun i v => .ok ⟨v, i⟩

/-- A frame-execution oracle over `Value Nat` that always reports
`Return`. -/
def retExecVal : FrameExec (Value Nat) :=
  fun frame stack => .ok (ExitStatus.Return, frame, stack)

/-- A trivially succeeding execution oracle for the C9 witness. -/
def witExecute : Script → Option (List Nat) → Except RuntimeError Unit :=
  fun _ _ => .ok ()

/-! ## Helper lemmas about `makeFrameLoop` and `make_frame` -/

theorem drop_set_cons (l : List α) (k : Nat) (a : α) (h : k < l.length) :
    (l.set k a).drop k = a :: l.drop (k + 1) := by
  induction l generalizing k with
  | nil => simp at h
  | cons x xs ih =>
    cases k with
    | zero => simp
    | succ k => simpa using ih k (by simpa using h)

theorem makeFrameLoop_ok (vs rest : List V) (locals : Locals V)
    (h : vs.length ≤ locals.length) :
    makeFrameLoop vs.length locals (vs ++ rest) =
      (.ok (vs.reverse.map some ++ locals.drop vs.length), rest) := by
  induction vs generalizing locals with
  | nil => simp [makeFrameLoop]
  | cons v vs ih =>
    have hlt : vs.length < locals.length := by
      simp only [List.length_cons] at h
      omega
    simp only [List.length_cons, List.cons_append, makeFrameLoop, EvalStack.pop]
    simp only [Locals.store, if_pos hlt]
    rw [ih (locals.set vs.length (some v)) (by simpa using le_of_lt hlt)]
    simp [drop_set_cons locals vs.length (some v) hlt, List.map_append]

theorem makeFrameLoop_underflow (n : Nat) (locals : Locals V) (stack : EvalStack V)
    (hshort : stack.length < n) (hcap : n ≤ locals.length) :
    makeFrameLoop n locals stack =
      (.error (RuntimeError.new StatusCode.StackUnderflow), []) := by
  induction n generalizing locals stack with
  | zero => omega
  | succ n ih =>
    cases stack with
    | nil => simp [makeFrameLoop, EvalStack.pop]
    | cons v rest =>
      have hn : n < locals.length := by omega
      simp only [makeFrameLoop, EvalStack.pop, Locals.store, if_pos hn]
      exact ih (locals.set n (some v)) rest
        (by simp only [List.length_cons] at hshort; omega) (by simpa using le_of_lt hn)

theorem replicate_drop (n m : Nat) (a : α) :
    (List.replicate n a).drop m = List.replicate (n - m) a := by
  induction m generalizing n with
  | zero => simp
  | succ m ih =>
    cases n with
    | zero => simp
    | succ n => simp [ih n]

theorem make_frame_ok (func : FunctionData) (args rest : List V)
    (interp : Interpreter V)
    (hstack : interp.stack = args.reverse ++ rest)
    (hargs : args.length = func.arg_count)
    (hwf : func.arg_count ≤ func.local_count) :
    make_frame interp func =
      (.ok ⟨func,
            args.map some ++
              List.replicate (func.local_count - func.arg_count) none, 0⟩,
       { interp with stack := rest }) := by
  have h1 : (args.reverse).length = func.arg_count := by simpa using hargs
  have h2 : (args.reverse).length ≤ (Locals.new V func.local_count).length := by
    simp only [Locals.new, List.length_replicate, h1]
    exact hwf
  have hloop := makeFrameLoop_ok args.reverse rest (Locals.new V func.local_count) h2
  rw [h1] at hloop
  simp only [Locals.new] at hloop
  simp only [make_frame, hstack, Locals.new, hloop, Frame.new]
  simp [replicate_drop]

/-! ## Claim theorems: frame construction (C1, C7, C10) -/

/-- Claim C1: for a function with declared argument count `n`, `make_frame`
pops exactly `n` values off the evaluation stack (the resulting stack is
exactly the old stack minus its top `n` values, and nothing else of the
interpreter changes) and stores the i-th popped value at locals index
`n-1-i`: with the caller having pushed `args` left-to-right (so the stack
top-first reads `args.reverse`), the new frame's locals hold
`locals[i] = args[i]` for every formal parameter `i`, in declaration
order, with the remaining slots empty. -/
theorem make_frame_pops_args_in_declaration_order (func : FunctionData)
    (args rest : List V) (interp : Interpreter V)
    (hstack : interp.stack = args.reverse ++ rest)
    (hargs : args.length = func.arg_count)
    (hwf : func.arg_count ≤ func.local_count) :
    make_frame interp func =
      (.ok ⟨func,
            args.map some ++
              List.replicate (func.local_count - func.arg_count) none, 0⟩,
       { interp with stack := rest }) :=
  make_frame_ok func args rest interp hstack hargs hwf

/-- Witness for C1: a function of two arguments and three locals, with the
caller having pushed `10` then `20` onto a stack that already held `7`:
the frame's locals read `[10, 20]` in declaration order and exactly the
two argument values are removed from the stack. -/
theorem make_frame_pops_args_in_declaration_order_witness :
    make_frame (V := Nat) ⟨[20, 10, 7], [], 0⟩ ⟨2, 3⟩ =
      (.ok ⟨⟨2, 3⟩, [some 10, some 20, none], 0⟩, ⟨[7], [], 0⟩) := by
  simpa using
    make_frame_pops_args_in_declaration_order ⟨2, 3⟩ [10, 20] [7]
      ⟨[20, 10, 7], [], 0⟩ rfl rfl (by decide)

/-- Claim C7: when the declared argument count exceeds the number of values on
the evaluation stack, `make_frame` fails with `StackUnderflow`; and popping
an empty evaluation stack always yields `StackUnderflow` (total function —
never a panic). -/
theorem make_frame_underflow_error (func : FunctionData) (interp : Interpreter V)
    (hshort : interp.stack.length < func.arg_count)
    (hwf : func.arg_count ≤ func.local_count) :
    (make_frame interp func).1 =
        .error (RuntimeError.new StatusCode.StackUnderflow) ∧
    EvalStack.pop ([] : EvalStack V) =
        (.error (RuntimeError.new StatusCode.StackUnderflow), []) := by
  constructor
  · have hloop := makeFrameLoop_underflow func.arg_count
      (Locals.new V func.local_count) interp.stack hshort
      (by simp only [Locals.new, List.length_replicate]; exact hwf)
    simp only [Locals.new] at hloop
    simp [make_frame, Locals.new, hloop]
  · rfl

/-- Witness for C7: a function of three arguments over a stack holding only
two values. -/
theorem make_frame_underflow_error_witness :
    (make_frame (V := Nat) ⟨[1, 2], [], 0⟩ ⟨3, 3⟩).1 =
        .error (RuntimeError.new StatusCode.StackUnderflow) ∧
    EvalStack.pop ([] : EvalStack Nat) =
        (.error (RuntimeError.new StatusCode.StackUnderflow), []) :=
  make_frame_underflow_error ⟨3, 3⟩ ⟨[1, 2], [], 0⟩ (by decide) (by decide)

/-- Claim C10: `make_frame` is not atomic on failure — when the stack holds
`k` values and the callee declares more than `k` arguments, the loop pops
all `k` values (each stored into the locals bank under construction, which
is then discarded) before `EvalStack::pop` reports the underflow, so the
returned interpreter's evaluation stack is empty even though no frame is
produced. -/
theorem make_frame_drains_stack_on_underflow (func : FunctionData)
    (interp : Interpreter V)
    (hshort : interp.stack.length < func.arg_count)
    (hwf : func.arg_count ≤ func.local_count) :
    make_frame interp func =
      (.error (RuntimeError.new StatusCode.StackUnderflow),
       { interp with stack := ([] : EvalStack V) }) := by
  have hloop := makeFrameLoop_underflow func.arg_count
    (Locals.new V func.local_count) interp.stack hshort
    (by simp only [Locals.new, List.length_replicate]; exact hwf)
  simp only [Locals.new] at hloop
  simp [make_frame, Locals.new, hloop]

/-- Witness for C10: a two-value stack against a three-argument callee —
`make_frame` fails with `StackUnderflow` and both values are gone from the
evaluation stack. -/
theorem make_frame_drains_stack_on_underflow_witness :
    make_frame (V := Nat) ⟨[1, 2], [], 5⟩ ⟨3, 3⟩ =
      (.error (RuntimeError.new StatusCode.StackUnderflow), ⟨[], [], 5⟩) :=
  make_frame_drains_stack_on_underflow ⟨3, 3⟩ ⟨[1, 2], [], 5⟩ (by decide) (by decide)

/-! ## Helper lemmas about the call/return loop -/

theorem execFrame_error (exec : FrameExec V) (frame : Frame V)
    (interp : Interpreter V) (e : RuntimeError)
    (h : execFrame exec frame interp = .error e) :
    exec frame interp.stack = .error e := by
  cases hx : exec frame interp.stack with
  | error e2 =>
    simp only [execFrame, hx, Except.error.injEq] at h
    rw [h]
  | ok res =>
    obtain ⟨s, f, st⟩ := res
    simp [execFrame, hx] at h

theorem makeFrameLoop_error_status :
    ∀ (n : Nat) (locals : Locals V) (stack : EvalStack V) (e : RuntimeError)
      (stack' : EvalStack V),
      makeFrameLoop n locals stack = (.error e, stack') →
      e.status = StatusCode.StackUnderflow ∨
      e.status = StatusCode.LocalsIndexOutOfBounds := by
  intro n
  induction n with
  | zero =>
    intro locals stack e stack' h
    simp [makeFrameLoop] at h
  | succ n ih =>
    intro locals stack e stack' h
    cases stack with
    | nil =>
      simp only [makeFrameLoop, EvalStack.pop, Prod.mk.injEq,
        Except.error.injEq] at h
      rw [← h.1]
      left
      rfl
    | cons v rest =>
      by_cases hn : n < locals.length
      · simp only [makeFrameLoop, EvalStack.pop, Locals.store, if_pos hn] at h
        exact ih _ _ _ _ h
      · simp only [makeFrameLoop, EvalStack.pop, Locals.store, if_neg hn,
          Prod.mk.injEq, Except.error.injEq] at h
        rw [← h.1]
        right
        rfl

theorem make_frame_error_status (interp : Interpreter V) (func : FunctionData)
    (e : RuntimeError) (interp' : Interpreter V)
    (h : make_frame interp func = (.error e, interp')) :
    e.status = StatusCode.StackUnderflow ∨
    e.status = StatusCode.LocalsIndexOutOfBounds := by
  cases hm : makeFrameLoop func.arg_count (Locals.new V func.local_count)
      interp.stack with
  | mk r s =>
    cases r with
    | error e2 =>
      simp only [make_frame, hm, Prod.mk.injEq, Except.error.injEq] at h
      rw [← h.1]
      exact makeFrameLoop_error_status func.arg_count _ _ e2 s hm
    | ok l => simp [make_frame, hm] at h

theorem runLoop_success_frames_nil (exec : FrameExec V) (loader : MoveLoader) :
    ∀ (fuel : Nat) (frame : Frame V) (interp : Interpreter V)
      (out : Interpreter V),
      runLoop exec loader fuel frame interp = .ok out → out.frames = [] := by
  intro fuel
  induction fuel with
  | zero =>
    intro frame interp out h
    simp [runLoop] at h
  | succ fuel ih =>
    intro frame interp out h
    cases hx : execFrame exec frame interp with
    | error e => simp [runLoop, hx] at h
    | ok res =>
      obtain ⟨status, frame', interp'⟩ := res
      cases status with
      | Return =>
        cases hf : interp'.frames with
        | nil =>
          simp only [runLoop, hx, hf] at h
          cases h
          exact hf
        | cons caller rest =>
          simp only [runLoop, hx, hf] at h
          exact ih _ _ _ h
      | Call index =>
        cases hm : make_frame interp'
            (loader.function_from_handle frame'.func index) with
        | mk r interpAfter =>
          cases r with
          | error e => simp [runLoop, hx, hm] at h
          | ok callee =>
            simp only [runLoop, hx, hm] at h
            exact ih _ _ _ h

/-! ## Claim theorems: the call/return state machine (C2, C3, C6) -/

/-- Claim C2: when the current frame's execution reports `ExitStatus::Return`,
the loop pops the call stack — if a suspended caller exists it becomes the
current frame with its pc advanced past the call instruction and execution
continues; if the call stack is empty the script terminates successfully.
Moreover a successful termination can only happen with an empty call
stack, so call-stack depth is `0` exactly when the run ends in success. -/
theorem run_script_return_transition (exec : FrameExec V) (loader : MoveLoader)
    (fuel : Nat) (frame frameAfter : Frame V) (interp : Interpreter V)
    (stackAfter : EvalStack V)
    (hexec : exec frame interp.stack = .ok (.Return, frameAfter, stackAfter)) :
    (interp.frames = [] →
      runLoop exec loader (fuel + 1) frame interp =
        .ok ⟨stackAfter, [], interp.step + 1⟩) ∧
    (∀ (caller : Frame V) (rest : List (Frame V)),
      interp.frames = caller :: rest →
      runLoop exec loader (fuel + 1) frame interp =
        runLoop exec loader fuel caller.add_pc
          ⟨stackAfter, rest, interp.step + 1⟩) ∧
    (∀ (fuel2 : Nat) (frame2 : Frame V) (interp2 out : Interpreter V),
      runLoop exec loader fuel2 frame2 interp2 = .ok out →
      out.frames = []) := by
  refine ⟨?_, ?_, runLoop_success_frames_nil exec loader⟩
  · intro hframes
    simp [runLoop, execFrame, hexec, hframes]
  · intro caller rest hframes
    simp [runLoop, execFrame, hexec, hframes]

/-- Witness for C2: with an empty call stack a `Return` terminates the run
successfully; with `witCaller` suspended, the run continues in the caller
with its pc advanced. -/
theorem run_script_return_transition_witness :
    runLoop retExec constLoader 1 witFrame ⟨[], [], 0⟩ = .ok ⟨[], [], 1⟩ ∧
    runLoop retExec constLoader 1 witFrame ⟨[], [witCaller], 0⟩ =
      runLoop retExec constLoader 0 witCaller.add_pc ⟨[], [], 1⟩ := by
  have h1 := run_script_return_transition retExec constLoader 0 witFrame
    witFrame ⟨[], [], 0⟩ [] rfl
  have h2 := run_script_return_transition retExec constLoader 0 witFrame
    witFrame ⟨[], [witCaller], 0⟩ [] rfl
  exact ⟨h1.1 rfl, h2.2.1 witCaller [] rfl⟩

/-- Claim C3: when the current frame's execution reports
`ExitStatus::Call(index)`, the loop resolves `index` against the current
frame's function through the loader, builds the callee's frame via
`make_frame` (popping the callee's `arg_count` arguments off the shared
evaluation stack, which the caller had pushed in declaration order), pushes
the current frame onto the call stack, and continues execution in the
callee frame. -/
theorem run_script_call_transition (exec : FrameExec V) (loader : MoveLoader)
    (fuel : Nat) (frame frameAfter : Frame V) (interp : Interpreter V)
    (stackAfter : EvalStack V) (idx : Nat) (func : FunctionData)
    (args rest : List V)
    (hexec : exec frame interp.stack = .ok (.Call idx, frameAfter, stackAfter))
    (hresolve : loader.function_from_handle frameAfter.func idx = func)
    (hstack : stackAfter = args.reverse ++ rest)
    (hargs : args.length = func.arg_count)
    (hwf : func.arg_count ≤ func.local_count) :
    runLoop exec loader (fuel + 1) frame interp =
      runLoop exec loader fuel
        ⟨func,
         args.map some ++
           List.replicate (func.local_count - func.arg_count) none, 0⟩
        ⟨rest, frameAfter :: interp.frames, interp.step + 1⟩ := by
  have hmf := make_frame_ok func args rest
    { interp with stack := stackAfter, step := interp.step + 1 }
    (by simpa using hstack) hargs hwf
  simp [runLoop, execFrame, hexec, hresolve, hmf]

/-- Witness for C3: a `Call 0` from `witFrame` over a stack holding the
single argument `42` suspends `witFrame` and continues in the callee frame
whose locals hold `42`. -/
theorem run_script_call_transition_witness :
    runLoop callExec oneLoader 1 witFrame ⟨[42], [], 0⟩ =
      runLoop callExec oneLoader 0 ⟨⟨1, 1⟩, [some 42], 0⟩
        ⟨[], [witFrame], 1⟩ := by
  simpa using
    run_script_call_transition callExec oneLoader 0 witFrame witFrame
      ⟨[42], [], 0⟩ [42] 0 ⟨1, 1⟩ [42] [] rfl rfl rfl rfl (by decide)

/-- Claim C6 (code-bug evidence): the visible `run_script` gives handle
resolution no error channel — `interpreter.rs:131-133` binds the loader's
result as a bare `Arc<Function>` (no `Result`, no `?`), so the loop can
only surface errors produced by frame execution itself or by `make_frame`
(whose errors are `StackUnderflow` or `LocalsIndexOutOfBounds`).  Hence,
whenever the execution oracle never reports `UnresolvedFunctionHandle`,
the loop cannot return it either — contradicting the claim that a call to
an unresolvable handle index makes `run_script` fail with a typed
`UnresolvedFunctionHandle`. -/
theorem run_script_unresolved_handle_unreachable (exec : FrameExec V)
    (loader : MoveLoader)
    (hexec : ∀ (f : Frame V) (s : EvalStack V) (e : RuntimeError),
      exec f s = .error e → e.status ≠ StatusCode.UnresolvedFunctionHandle) :
    ∀ (fuel : Nat) (frame : Frame V) (interp : Interpreter V),
      runLoop exec loader fuel frame interp ≠
        .err (RuntimeError.new StatusCode.UnresolvedFunctionHandle) := by
  intro fuel
  induction fuel with
  | zero =>
    intro frame interp h
    simp [runLoop] at h
  | succ fuel ih =>
    intro frame interp h
    cases hx : execFrame exec frame interp with
    | error e =>
      simp only [runLoop, hx, RunOutcome.err.injEq] at h
      have hc := execFrame_error exec frame interp e hx
      exact hexec frame interp.stack e hc (by rw [h]; rfl)
    | ok res =>
      obtain ⟨status, frame', interp'⟩ := res
      cases status with
      | Return =>
        cases hf : interp'.frames with
        | nil => simp [runLoop, hx, hf] at h
        | cons caller rest =>
          simp only [runLoop, hx, hf] at h
          exact ih _ _ h
      | Call index =>
        cases hm : make_frame interp'
            (loader.function_from_handle frame'.func index) with
        | mk r interpAfter =>
          cases r with
          | error e =>
            simp only [runLoop, hx, hm, RunOutcome.err.injEq] at h
            have hst := make_frame_error_status interp'
              (loader.function_from_handle frame'.func index) e interpAfter hm
            rw [h] at hst
            rcases hst with hst | hst <;> cases hst
          | ok callee =>
            simp only [runLoop, hx, hm] at h
            exact ih _ _ h

/-- Witness for the C6 evidence theorem (spec Scenario C's shape): a frame
whose execution issues `Call 7`, with an error-free execution oracle — the
run cannot end in `UnresolvedFunctionHandle`. -/
theorem run_script_unresolved_handle_unreachable_witness :
    runLoop callSevenExec constLoader 1 witFrame ⟨[], [], 0⟩ ≠
      .err (RuntimeError.new StatusCode.UnresolvedFunctionHandle) :=
  run_script_unresolved_handle_unreachable callSevenExec constLoader
    (by intro f s e h; simp [callSevenExec] at h) 1 witFrame ⟨[], [], 0⟩

/-! ## Helper lemmas about the step counter and the label trace -/

theorem execFrame_ok_state (exec : FrameExec V) (frame : Frame V)
    (interp : Interpreter V) (status : ExitStatus) (frame' : Frame V)
    (interp' : Interpreter V)
    (h : execFrame exec frame interp = .ok (status, frame', interp')) :
    interp'.step = interp.step + 1 ∧ interp'.frames = interp.frames := by
  cases hx : exec frame interp.stack with
  | error e => simp [execFrame, hx] at h
  | ok res =>
    obtain ⟨s, f, st⟩ := res
    simp only [execFrame, hx, Except.ok.injEq, Prod.mk.injEq] at h
    obtain ⟨-, -, h3⟩ := h
    rw [← h3]
    exact ⟨rfl, rfl⟩

theorem make_frame_snd_state (interp : Interpreter V) (func : FunctionData) :
    (make_frame interp func).2.step = interp.step ∧
    (make_frame interp func).2.frames = interp.frames := by
  cases hm : makeFrameLoop func.arg_count (Locals.new V func.local_count)
      interp.stack with
  | mk r s => cases r <;> simp [make_frame, hm]

theorem runLabels_succ (exec : FrameExec V) (loader : MoveLoader) (fuel : Nat)
    (frame : Frame V) (interp : Interpreter V) :
    runLabels exec loader (fuel + 1) frame interp = [interp.step] ∨
    ∃ (frame2 : Frame V) (interp2 : Interpreter V),
      interp2.step = interp.step + 1 ∧
      runLabels exec loader (fuel + 1) frame interp =
        interp.step :: runLabels exec loader fuel frame2 interp2 := by
  cases hx : execFrame exec frame interp with
  | error e => left; simp [runLabels, hx]
  | ok res =>
    obtain ⟨status, frame', interp'⟩ := res
    have hstep := (execFrame_ok_state exec frame interp status frame' interp' hx).1
    cases status with
    | Return =>
      cases hf : interp'.frames with
      | nil => left; simp [runLabels, hx, hf]
      | cons caller rest =>
        right
        exact ⟨caller.add_pc, { interp' with frames := rest },
          by simp [hstep], by simp [runLabels, hx, hf]⟩
    | Call index =>
      cases hm : make_frame interp'
          (loader.function_from_handle frame'.func index) with
      | mk r interpAfter =>
        cases r with
        | error e => left; simp [runLabels, hx, hm]
        | ok callee =>
          right
          refine ⟨callee,
            { interpAfter with frames := frame' :: interpAfter.frames },
            ?_, by simp [runLabels, hx, hm]⟩
          have hmf := make_frame_snd_state interp'
            (loader.function_from_handle frame'.func index)
          simp only [hm] at hmf
          simp [hmf.1, hstep]

theorem runLabels_lower_bound (exec : FrameExec V) (loader : MoveLoader) :
    ∀ (fuel : Nat) (frame : Frame V) (interp : Interpreter V) (l : Nat),
      l ∈ runLabels exec loader fuel frame interp → interp.step ≤ l := by
  intro fuel
  induction fuel with
  | zero =>
    intro frame interp l hl
    simp [runLabels] at hl
  | succ fuel ih =>
    intro frame interp l hl
    rcases runLabels_succ exec loader fuel frame interp with h | ⟨f2, i2, hs, h⟩
    · rw [h] at hl
      simp at hl
      omega
    · rw [h] at hl
      rcases List.mem_cons.mp hl with rfl | hl
      · exact le_refl _
      · have := ih f2 i2 l hl
        omega

theorem runLabels_sorted (exec : FrameExec V) (loader : MoveLoader) :
    ∀ (fuel : Nat) (frame : Frame V) (interp : Interpreter V),
      List.Pairwise (· < ·) (runLabels exec loader fuel frame interp) := by
  intro fuel
  induction fuel with
  | zero => intro frame interp; simp [runLabels]
  | succ fuel ih =>
    intro frame interp
    rcases runLabels_succ exec loader fuel frame interp with h | ⟨f2, i2, hs, h⟩
    · rw [h]
      simp
    · rw [h]
      rw [List.pairwise_cons]
      refine ⟨fun b hb => ?_, ih f2 i2⟩
      have := runLabels_lower_bound exec loader fuel f2 i2 b hb
      omega

/-! ## Claim theorem: step counter and region labels (C5) -/

/-- Claim C5: the step counter advances once per top-level call into a circuit
region, so the sequence of step numbers embedded into the region labels
`"into frame in step#N"` that the driver loop opens is strictly
increasing — in particular the labels never repeat within one run. -/
theorem run_script_region_labels_unique (exec : FrameExec V)
    (loader : MoveLoader) (fuel : Nat) (frame : Frame V)
    (interp : Interpreter V) :
    List.Pairwise (· < ·) (runLabels exec loader fuel frame interp) ∧
    (runLabels exec loader fuel frame interp).Nodup := by
  have h := runLabels_sorted exec loader fuel frame interp
  exact ⟨h, h.imp (fun hlt => Nat.ne_of_lt hlt)⟩

/-! ## Helper lemmas about argument processing -/

theorem processArgsLoop_ok (convert_from : A → Except RuntimeError F)
    (cf : A → F) (hcv : ∀ a, convert_from a = .ok (cf a))
    (load_private : Nat → Option F → Except Unit (Cell F))
    (cp : Nat → Option F → Cell F)
    (hlp : ∀ i v, load_private i v = .ok (cp i v)) :
    ∀ (pairs : List (Option A × MoveValueType)) (i : Nat)
      (locals : Locals (Value F)),
      i + pairs.length ≤ locals.length →
      ∃ locals',
        processArgsLoop convert_from load_private i locals pairs = .ok locals' ∧
        locals'.length = locals.length := by
  intro pairs
  induction pairs with
  | nil =>
    intro i locals _
    exact ⟨locals, rfl, rfl⟩
  | cons p rest ih =>
    intro i locals h
    obtain ⟨arg, ty⟩ := p
    have hi : i < locals.length := by
      simp only [List.length_cons] at h
      omega
    cases arg with
    | some a =>
      simp only [processArgsLoop, hcv a, hlp, Value.new_variable, Locals.store,
        if_pos hi]
      refine (ih (i + 1) _ ?_).imp fun l' hl' => ⟨hl'.1, ?_⟩
      · simp only [List.length_set]
        simp only [List.length_cons] at h
        omega
      · rw [hl'.2, List.length_set]
    | none =>
      simp only [processArgsLoop, hlp, Value.new_variable, Locals.store,
        if_pos hi]
      refine (ih (i + 1) _ ?_).imp fun l' hl' => ⟨hl'.1, ?_⟩
      · simp only [List.length_set]
        simp only [List.length_cons] at h
        omega
      · rw [hl'.2, List.length_set]

/-! ## Claim C4: argument arity handling -/

/-- Claim C4 counterexample: `run_script` performs no arity check.  Two literal
arguments `[3, 5]` against a single declared type (`U64`) and an entry
function declaring a single argument is an arity mismatch in both senses of
the claim; the claim says processing must fail with a fatal conversion error
and execution must not proceed, yet `run_script` zips the lists (silently
dropping the extra argument), loads one local, runs the script and
terminates successfully. -/
theorem run_script_no_arity_check_cex :
    ([3, 5] : List Nat).length ≠
        ([MoveValueType.U64] : List MoveValueType).length ∧
    ([3, 5] : List Nat).length ≠ (⟨1, 1⟩ : FunctionData).arg_count ∧
    run_script retExecVal witConvert witLoadPrivate constLoader 1 ⟨1, 1⟩
        (some [3, 5]) [MoveValueType.U64] ⟨[], [], 0⟩ =
      .ok ⟨[], [], 1⟩ := by
  refine ⟨by decide, by decide, ?_⟩
  rfl

/-- Claim C4 amended: `run_script` does not require matching arity —
`process_arguments` pairs the literal arguments with the declared types
positionally, truncating to the shorter list (Rust `zip`), never comparing
either length with the other or with the entry function's declared argument
count; provided the individual conversions and cell allocations succeed and
the locals bank can hold the processed prefix, argument processing succeeds
for *any* combination of lengths (and execution proceeds). -/
theorem process_arguments_no_arity_requirement
    (convert_from : A → Except RuntimeError F) (cf : A → F)
    (hcv : ∀ a, convert_from a = .ok (cf a))
    (load_private : Nat → Option F → Except Unit (Cell F))
    (cp : Nat → Option F → Cell F)
    (hlp : ∀ i v, load_private i v = .ok (cp i v))
    (locals : Locals (Value F)) (args : List A) (tys : List MoveValueType)
    (hcap : min args.length tys.length ≤ locals.length) :
    ∃ locals',
      process_arguments convert_from load_private locals (some args) tys =
        .ok locals' ∧
      locals'.length = locals.length := by
  have h := processArgsLoop_ok convert_from cf hcv load_private cp hlp
    ((args.map some).zip tys) 0 locals
    (by simpa [List.length_zip] using hcap)
  simpa [process_arguments] using h

/-- Witness for the amended C4: mismatched lengths (two literals, one
declared type, capacity one) are accepted — argument processing returns
`ok`. -/
theorem process_arguments_no_arity_requirement_witness :
    (process_arguments witConvert witLoadPrivate
        ([none] : Locals (Value Nat)) (some [3, 5])
        [MoveValueType.U64]).isOk = true := by
  obtain ⟨locals', h1, -⟩ :=
    process_arguments_no_arity_requirement witConvert id (fun a => rfl)
      witLoadPrivate (fun i v => ⟨v, i⟩) (fun i v => rfl)
      [none] [3, 5] [MoveValueType.U64] (by decide)
  rw [h1]
  rfl

/-! ## Claim C8: directive detection -/

/-- Claim C8 counterexample: the line `"//! args: 3,5"` does *not* begin with
`//!args:` (there is a space after `//!`), yet `parse_config` treats it as
an argument-list directive with value `3,5` — because the implementation
strips all whitespace from the whole line *before* testing the marker, not
only from the directive's value.  This falsifies "treats only lines
beginning with `//!args:` as an argument-list directive". -/
theorem parse_config_directive_detection_cex :
    stripPfx argsMarker cexArgsLine = none ∧
    parse_config [cexArgsLine] = ⟨some cexArgsValue, []⟩ := by
  constructor <;> rfl

/-- Claim C8 amended: `parse_config` first removes every whitespace character
from a line and then matches the markers: a line is an argument-list
directive exactly when its whitespace-stripped form begins with `//!args:`
(so whitespace before or inside the marker is tolerated), and the value
handed to the argument parser is the whitespace-stripped remainder; each
line whose stripped form begins with `//!mods:` contributes one module
name; a line matching neither marker leaves the configuration unchanged. -/
theorem parse_config_line_characterization (config : RunConfig)
    (line : List Char) :
    (∀ v, stripPfx argsMarker (stripWhitespace line) = some v →
       stripPfx modsMarker (stripWhitespace line) = none →
       parseConfigLine config line = { config with args := some v }) ∧
    (∀ v, stripPfx modsMarker (stripWhitespace line) = some v →
       stripPfx argsMarker (stripWhitespace line) = none →
       parseConfigLine config line =
         { config with modules := config.modules ++ [v] }) ∧
    (stripPfx argsMarker (stripWhitespace line) = none →
     stripPfx modsMarker (stripWhitespace line) = none →
     parseConfigLine config line = config) ∧
    parse_config = fun lines => lines.foldl parseConfigLine ⟨none, []⟩ := by
  refine ⟨?_, ?_, ?_, rfl⟩
  · intro v h1 h2
    simp [parseConfigLine, h1, h2]
  · intro v h1 h2
    simp [parseConfigLine, h1, h2]
  · intro h1 h2
    simp [parseConfigLine, h1, h2]

/-- Witness for the amended C8: a whitespace-littered args directive sets
`args` to the stripped value, and a mods directive appends one module
name. -/
theorem parse_config_line_characterization_witness :
    parseConfigLine ⟨none, []⟩ cexArgsLine =
      ⟨some cexArgsValue, []⟩ ∧
    parseConfigLine ⟨none, []⟩ cexModsLine =
      ⟨none, [cexModName]⟩ := by
  have h1 := (parse_config_line_characterization ⟨none, []⟩
    cexArgsLine).1 cexArgsValue (by decide) (by decide)
  have h2 := (parse_config_line_characterization ⟨none, []⟩
    cexModsLine).2.1 cexModName (by decide) (by decide)
  exact ⟨h1, by simpa using h2⟩

/-! ## Claim C9: the proving round trip -/

/-- Claim C9: the round trip of `tests/testsuite.rs::vm_test`
(`testsuite.rs:62-87`) — for any script/args pair on which `execute`
succeeds, generating parameters with `setup_script`, proving with the same
script and args against those parameters, and verifying the produced proof
with the setup's verification key yields `true`. -/
theorem script_prove_verify_round_trip
    (execute : Script → Option (List Nat) → Except RuntimeError Unit)
    (s : Script) (args : Option (List Nat)) (u : Unit)
    (hexec : execute s args = .ok u) :
    prove_script execute s args (setup_script s) = .ok ⟨s⟩ ∧
    verify_script (setup_script s).vk ⟨s⟩ = true := by
  constructor
  · simp [prove_script, hexec, setup_script]
  · simp [verify_script, setup_script]

/-- Witness for C9 at a concrete script and argument list. -/
theorem script_prove_verify_round_trip_witness :
    prove_script witExecute ⟨[1, 2], []⟩ (some [3, 5])
        (setup_script ⟨[1, 2], []⟩) = .ok ⟨⟨[1, 2], []⟩⟩ ∧
    verify_script (setup_script ⟨[1, 2], []⟩).vk ⟨⟨[1, 2], []⟩⟩ = true :=
  script_prove_verify_round_trip witExecute ⟨[1, 2], []⟩ (some [3, 5]) () rfl

